import Mathlib

/-!
Shallow embedding of the PiLightController core (src/main.py, src/util.py):
color grids, the device double-buffer contract, placement / layout math,
the device registry, the running configuration and one cycle of the
light-write loop.  Python list indexing (including negative-index
wrap-around and IndexError) is modelled by Option-valued access, and the
reference semantics of Python objects (the aliasing produced by
`self._lights = self._showBuffer`) is modelled by an explicit store of
grids addressed by natural-number references.
-/

/-- An RGB triple, the element of every color grid ([r, g, b] in the source). -/
structure Color where
  r : Int
  g : Int
  b : Int
deriving DecidableEq, Repr

/-- A color grid: a list of rows indexed grid[x][y] as in the source. -/
abbrev Grid := List (List Color)

/-- util.make_color_grid: `[[[r, g, b] for i in range(y)] for i in range(x)]`. -/
def make_color_grid (x y : Nat) (r : Int := 0) (g : Int := 0) (b : Int := 0) : Grid :=
  List.replicate x (List.replicate y ⟨r, g, b⟩)

/-- Resolve a Python list index against a list of length `len`:
nonnegative indices must be below `len`, negative indices wrap by adding
`len`, anything else raises IndexError (modelled as `none`). -/
def pyIdx (len : Nat) (i : Int) : Option Nat :=
  if 0 ≤ i then
    if i < (len : Int) then some i.toNat else none
  else
    if -(len : Int) ≤ i then some ((len : Int) + i).toNat else none

/-- Python `l[i]` for reading. -/
def pyGet {α : Type} (l : List α) (i : Int) : Option α :=
  (pyIdx l.length i).bind fun n => l[n]?

/-- Python `l[i] = a`. -/
def pySet {α : Type} (l : List α) (i : Int) (a : α) : Option (List α) :=
  (pyIdx l.length i).map fun n => l.set n a

/-- Python `grid[x][y]` for reading a cell. -/
def pyGet2 (gr : Grid) (x y : Int) : Option Color :=
  (pyGet gr x).bind fun row => pyGet row y

/-- Python `grid[x][y] = c` (the three component assignments of
DeviceObj.set share the indices x, y, so they are one cell update). -/
def pySetCell (gr : Grid) (x y : Int) (c : Color) : Option Grid :=
  (pyGet gr x).bind fun row =>
    (pySet row y c).bind fun row2 =>
      pySet gr x row2

/-- State of a DeviceObj.  `_lights` and `_showBuffer` are Python
references to list objects; `heap` is the store of grid objects, and the
two fields hold references into it, so the aliasing assignment performed
by the source's show() is representable. -/
structure DeviceState where
  sizeX : Nat
  sizeY : Nat
  lightsRef : Nat
  showBufferRef : Nat
  heap : Nat → Grid

namespace DeviceObj

/-- DeviceObj.__init__: two distinct freshly allocated grids of the
declared size, `_lights` at reference 0 and `_showBuffer` at reference 1. -/
def initState (x y : Nat) : DeviceState :=
  { sizeX := x
    sizeY := y
    lightsRef := 0
    showBufferRef := 1
    heap := fun i =>
      if i = 0 then make_color_grid x y
      else if i = 1 then make_color_grid x y
      else [] }

/-- DeviceObj.get: read the visible grid `_lights` at [x][y]
(IndexError modelled as `none`). -/
def get (s : DeviceState) (x y : Int) : Option Color :=
  pyGet2 (s.heap s.lightsRef) x y

/-- DeviceObj.get_size. -/
def get_size (s : DeviceState) : Nat × Nat :=
  (s.sizeX, s.sizeY)

/-- DeviceObj.set: mutate the object referred to by `_showBuffer` at
[x][y]; an out-of-range index raises IndexError (`none`). -/
def set (s : DeviceState) (r g b : Int) (x y : Int) : Option DeviceState :=
  (pySetCell (s.heap s.showBufferRef) x y ⟨r, g, b⟩).map fun gr2 =>
    { s with heap := Function.update s.heap s.showBufferRef gr2 }

/-- DeviceObj.show: `self._lights = self._showBuffer`, a reference
assignment — afterwards both names refer to the same grid object. -/
def show_dev (s : DeviceState) : DeviceState :=
  { s with lightsRef := s.showBufferRef }

end DeviceObj

/-- Whether a grid has exactly `W` rows, each of length `H`. -/
def gridSized (gr : Grid) (W H : Nat) : Bool :=
  gr.length == W && gr.all fun row => row.length == H

/-- DevicePosition: a named placement rectangle inside the canvas. -/
structure DevicePosition where
  name : String
  x : Int
  y : Int
  w : Int
  h : Int
deriving DecidableEq, Repr

namespace DevicePosition

/-- DevicePosition.get_last_position. -/
def get_last_position (p : DevicePosition) : Int × Int :=
  (p.x + p.w - 1, p.y + p.h - 1)

/-- DevicePosition.is_inside: `self.x <= x < self.x + self.w and
self.y <= y < self.y + self.h`. -/
def is_inside (p : DevicePosition) (x y : Int) : Bool :=
  (p.x ≤ x && x < p.x + p.w) && (p.y ≤ y && y < p.y + p.h)

/-- DevicePosition.translate: `local = canvas − origin`. -/
def translate (p : DevicePosition) (x y : Int) : Int × Int :=
  (x - p.x, y - p.y)

end DevicePosition

/-- DeviceManager.get_layout_size: running maxima starting from 0, fed by
each placement's get_last_position plus one. -/
def get_layout_size (layout : List DevicePosition) : Int × Int :=
  layout.foldl
    (fun acc p =>
      let lp := p.get_last_position
      (if acc.1 < lp.1 + 1 then lp.1 + 1 else acc.1,
       if acc.2 < lp.2 + 1 then lp.2 + 1 else acc.2))
    (0, 0)

/-- A Python dict preserving insertion order (Python ≥ 3.7), as an
association list whose keys are unique. -/
abbrev PyDict (α : Type) := List (String × α)

/-- Python `d[k]` for reading (KeyError modelled as `none`). -/
def dictGet {α : Type} (d : PyDict α) (k : String) : Option α :=
  (d.find? fun kv => kv.1 == k).map fun kv => kv.2

/-- Python `d[k] = v`: replace in place when the key exists, else append. -/
def dictSet {α : Type} (d : PyDict α) (k : String) (v : α) : PyDict α :=
  if d.any fun kv => kv.1 == k then
    d.map fun kv => if kv.1 == k then (k, v) else kv
  else
    d ++ [(k, v)]

/-- The data of a registered device the DeviceManager uses: its name and
declared size (the device object itself is held separately in claims that
need the pixel buffers). -/
structure DevRec where
  name : String
  sizeX : Nat
  sizeY : Nat
deriving DecidableEq, Repr

/-- DeviceManager state: the `devices` dict and the `_currentLayout`
list of placements. -/
structure DeviceManagerSt where
  devices : PyDict DevRec
  currentLayout : List DevicePosition
deriving DecidableEq, Repr

namespace DeviceManager

/-- DeviceManager.get_device_size: `self.devices[name].get_size()`
(KeyError modelled as `none`). -/
def get_device_size (m : DeviceManagerSt) (name : String) : Option (Nat × Nat) :=
  (dictGet m.devices name).map fun d => (d.sizeX, d.sizeY)

/-- DeviceManager.add_location: look up the device size and append a
DevicePosition to the layout. -/
def add_location (m : DeviceManagerSt) (name : String) (x y : Int) :
    Option DeviceManagerSt :=
  (get_device_size m name).map fun wh =>
    { m with currentLayout :=
        m.currentLayout ++ [⟨name, x, y, (wh.1 : Int), (wh.2 : Int)⟩] }

/-- DeviceManager.add_device: `self.devices[d.name] = d` (a plain dict
assignment, overwriting any existing entry) followed by
`self.add_location(d.name, 0, 0)`. -/
def add_device (m : DeviceManagerSt) (d : DevRec) : Option DeviceManagerSt :=
  add_location { m with devices := dictSet m.devices d.name d } d.name 0 0

end DeviceManager

/-- RunningConfig state (the float trigger_timer_length is kept as a
rational). -/
structure RunningConfig where
  mode : String
  trigger_source : String
  trigger_timer_length : ℚ
deriving DecidableEq, Repr

namespace RunningConfig

/-- RunningConfig.__init__. -/
def init : RunningConfig :=
  { mode := "cross", trigger_source := "timer", trigger_timer_length := 1 / 2 }

/-- RunningConfig.get_mode. -/
def get_mode (c : RunningConfig) : String := c.mode

/-- RunningConfig.get_trigger_source. -/
def get_trigger_source (c : RunningConfig) : String := c.trigger_source

/-- RunningConfig.set_mode. -/
def set_mode (c : RunningConfig) (m : String) : RunningConfig :=
  { c with mode := m }

/-- RunningConfig.set_trigger_source: the body is `self.mode = s`. -/
def set_trigger_source (c : RunningConfig) (s : String) : RunningConfig :=
  { c with mode := s }

end RunningConfig

/-- A Python str object: its character value together with its object
identity (`id()`); `is` compares identities, `==` compares values. -/
structure PyStr where
  val : String
  id : Nat
deriving DecidableEq, Repr

/-- Python `a is b` on str objects: object-identity comparison. -/
def pyIs (a b : PyStr) : Bool := a.id == b.id

/-- The interned literal "timer" appearing in thread_trigger. -/
def timerLiteral : PyStr := ⟨"timer", 0⟩

/-- The interned literal "cross" appearing in thread_frame_maker. -/
def crossLiteral : PyStr := ⟨"cross", 1⟩

/-- The branch test of thread_trigger: `if trigger_source is "timer"`. -/
def triggerFires (trigger_source : PyStr) : Bool :=
  pyIs trigger_source timerLiteral

/-- The branch test of thread_frame_maker: `if mode is "cross"`. -/
def frameMakerGenerates (mode : PyStr) : Bool :=
  pyIs mode crossLiteral

/-- One inner step of the thread_light_write scan at canvas pixel (x, y):
compare `current_frame[x][y]` with `next_frame[x][y]` and, when they
differ, perform `dm.devices["test"].set(r, g, b, x, y)` with the canvas
coordinates — a KeyError or IndexError is `none`. -/
def lightWritePixel (devices : PyDict DeviceState) (cf nf : Grid) (x y : Nat) :
    Option (PyDict DeviceState) :=
  match pyGet2 cf (x : Int) (y : Int), pyGet2 nf (x : Int) (y : Int) with
  | some c, some n =>
    if c ≠ n then
      match dictGet devices "test" with
      | some dev =>
        match DeviceObj.set dev n.r n.g n.b (x : Int) (y : Int) with
        | some dev2 => some (dictSet devices "test" dev2)
        | none => none
      | none => none
    else some devices
  | _, _ => none

/-- The double loop `for x in range(size_x): for y in range(size_y)` of
thread_light_write. -/
def lightWriteScan (devices : PyDict DeviceState) (cf nf : Grid)
    (sizeX sizeY : Nat) : Option (PyDict DeviceState) :=
  (List.range sizeX).foldlM
    (fun ds x =>
      (List.range sizeY).foldlM (fun ds2 y => lightWritePixel ds2 cf nf x y) ds)
    devices

/-- One iteration of the thread_light_write loop body: when the frames
differ, scan every pixel, then `dm.devices["test"].show()`, then promote
the next frame into the current frame buffer; when they are equal the
iteration changes nothing.  Returns the device dict and the content of
the current-frame buffer afterwards. -/
def thread_light_write_cycle (devices : PyDict DeviceState) (cf nf : Grid) :
    Option (PyDict DeviceState × Grid) :=
  if cf ≠ nf then
    match pyGet nf 0 with
    | none => none
    | some row0 =>
      match lightWriteScan devices cf nf nf.length row0.length with
      | none => none
      | some ds =>
        match dictGet ds "test" with
        | some dev => some (dictSet ds "test" (DeviceObj.show_dev dev), nf)
        | none => none
  else
    some (devices, cf)

/-! Basic lemmas about the Python indexing model. -/

lemma pyIdx_coe_nat (len n : Nat) (h : n < len) : pyIdx len (n : Int) = some n := by
  unfold pyIdx
  rw [if_pos (Int.natCast_nonneg n), if_pos (by exact_mod_cast h)]
  simp

lemma pyIdx_none_iff (len : Nat) (i : Int) :
    pyIdx len i = none ↔ ((len : Int) ≤ i ∨ i < -(len : Int)) := by
  unfold pyIdx
  split_ifs with h1 h2 h3 <;> simp <;> omega

lemma pyIdx_some_lt (len : Nat) (i : Int) (n : Nat) (h : pyIdx len i = some n) :
    n < len := by
  unfold pyIdx at h
  split_ifs at h with h1 h2 h3 <;> simp_all <;> omega

lemma pyGet_coe_nat {α : Type} (l : List α) (n : Nat) (h : n < l.length) :
    pyGet l (n : Int) = l[n]? := by
  unfold pyGet
  rw [pyIdx_coe_nat _ _ h]
  rfl

lemma pySet_coe_nat {α : Type} (l : List α) (n : Nat) (a : α) (h : n < l.length) :
    pySet l (n : Int) a = some (l.set n a) := by
  unfold pySet
  rw [pyIdx_coe_nat _ _ h]
  rfl

lemma pyGet_eq_none_iff {α : Type} (l : List α) (i : Int) :
    pyGet l i = none ↔ ((l.length : Int) ≤ i ∨ i < -(l.length : Int)) := by
  constructor
  · intro h
    cases hp : pyIdx l.length i with
    | none => exact (pyIdx_none_iff _ _).mp hp
    | some n =>
      exfalso
      have hn := pyIdx_some_lt _ _ _ hp
      unfold pyGet at h
      rw [hp] at h
      simp [List.getElem?_eq_getElem hn] at h
  · intro h
    unfold pyGet
    rw [(pyIdx_none_iff _ _).mpr h]
    rfl

lemma pySet_eq_none_iff {α : Type} (l : List α) (i : Int) (a : α) :
    pySet l i a = none ↔ ((l.length : Int) ≤ i ∨ i < -(l.length : Int)) := by
  unfold pySet
  rw [← pyIdx_none_iff]
  cases pyIdx l.length i <;> simp

lemma pyGet_mem {α : Type} (l : List α) (i : Int) (a : α) (h : pyGet l i = some a) :
    a ∈ l := by
  unfold pyGet at h
  cases hp : pyIdx l.length i with
  | none => rw [hp] at h; simp at h
  | some n =>
    rw [hp] at h
    have hn := pyIdx_some_lt _ _ _ hp
    rw [Option.some_bind, List.getElem?_eq_getElem hn] at h
    exact (Option.some.inj h) ▸ List.getElem_mem hn

/-! Lemmas about the dict model. -/

lemma find_map_dictSet {α : Type} (d : PyDict α) (k : String) (v : α)
    (h : (d.any fun kv => kv.1 == k) = true) :
    ((d.map fun kv => if kv.1 == k then (k, v) else kv).find? fun kv => kv.1 == k)
      = some (k, v) := by
  induction d with
  | nil => simp at h
  | cons a rest ih =>
    rw [List.map_cons]
    by_cases ha : (a.1 == k) = true
    · rw [if_pos ha]
      exact List.find?_cons_of_pos _ (beq_self_eq_true k)
    · have h2 : (rest.any fun kv => kv.1 == k) = true := by
        simp only [List.any_cons] at h
        rcases Bool.or_eq_true_iff.mp h with hh | hh
        · exact absurd hh ha
        · exact hh
      rw [if_neg ha, List.find?_cons_of_neg (p := fun kv : String × α => kv.1 == k) _ ha]
      exact ih h2

lemma find_append_single {α : Type} (d : PyDict α) (k : String) (v : α)
    (h : (d.any fun kv => kv.1 == k) = false) :
    ((d ++ [(k, v)]).find? fun kv => kv.1 == k) = some (k, v) := by
  induction d with
  | nil => exact List.find?_cons_of_pos _ (beq_self_eq_true k)
  | cons a rest ih =>
    simp only [List.any_cons, Bool.or_eq_false_iff] at h
    rw [List.cons_append,
        List.find?_cons_of_neg (p := fun kv : String × α => kv.1 == k) _ (by simp [h.1])]
    exact ih h.2

lemma dictGet_dictSet_self {α : Type} (d : PyDict α) (k : String) (v : α) :
    dictGet (dictSet d k v) k = some v := by
  unfold dictGet dictSet
  split_ifs with h
  · rw [find_map_dictSet d k v h]
    rfl
  · rw [find_append_single d k v (Bool.eq_false_iff.mpr h)]
    rfl

/-! Lemmas about running maxima, used for get_layout_size. -/

def foldlMax (l : List Int) (a : Int) : Int := l.foldl max a

lemma le_foldlMax_init (l : List Int) (a : Int) : a ≤ foldlMax l a := by
  induction l generalizing a with
  | nil => simp [foldlMax]
  | cons x xs ih => exact le_trans (le_max_left a x) (ih (max a x))

lemma le_foldlMax_mem (l : List Int) : ∀ a v : Int, v ∈ l → v ≤ foldlMax l a := by
  induction l with
  | nil => intro a v hv; simp at hv
  | cons x xs ih =>
    intro a v hv
    rcases List.mem_cons.mp hv with h | h
    · subst h
      exact le_trans (le_max_right a v) (le_foldlMax_init xs (max a v))
    · exact ih (max a x) v h

lemma foldlMax_eq_init_or_mem (l : List Int) : ∀ a : Int, foldlMax l a = a ∨ foldlMax l a ∈ l := by
  induction l with
  | nil => intro a; exact Or.inl rfl
  | cons x xs ih =>
    intro a
    have hfx : foldlMax (x :: xs) a = foldlMax xs (max a x) := rfl
    rcases ih (max a x) with h | h
    · rcases max_choice a x with hm | hm
      · exact Or.inl (by rw [hfx, h, hm])
      · exact Or.inr (by rw [hfx, h, hm]; exact List.mem_cons_self x xs)
    · exact Or.inr (by rw [hfx]; exact List.mem_cons_of_mem x h)

lemma get_layout_size_foldl (layout : List DevicePosition) (a b : Int) :
    layout.foldl
      (fun acc p =>
        let lp := p.get_last_position
        (if acc.1 < lp.1 + 1 then lp.1 + 1 else acc.1,
         if acc.2 < lp.2 + 1 then lp.2 + 1 else acc.2))
      (a, b)
    = (foldlMax (layout.map fun p => p.x + p.w) a,
       foldlMax (layout.map fun p => p.y + p.h) b) := by
  induction layout generalizing a b with
  | nil => rfl
  | cons p rest ih =>
    rw [List.foldl_cons, ih]
    simp only [DevicePosition.get_last_position, List.map_cons, foldlMax, List.foldl_cons]
    have hx : (if a < p.x + p.w - 1 + 1 then p.x + p.w - 1 + 1 else a) = max a (p.x + p.w) := by
      rw [max_def]
      split_ifs <;> omega
    have hy : (if b < p.y + p.h - 1 + 1 then p.y + p.h - 1 + 1 else b) = max b (p.y + p.h) := by
      rw [max_def]
      split_ifs <;> omega
    rw [hx, hy]

lemma get_layout_size_eq (layout : List DevicePosition) :
    get_layout_size layout
      = (foldlMax (layout.map fun p => p.x + p.w) 0,
         foldlMax (layout.map fun p => p.y + p.h) 0) :=
  get_layout_size_foldl layout 0 0

lemma add_device_eq (m : DeviceManagerSt) (d : DevRec) :
    DeviceManager.add_device m d =
      some { devices := dictSet m.devices d.name d,
             currentLayout := m.currentLayout ++
               [⟨d.name, 0, 0, (d.sizeX : Int), (d.sizeY : Int)⟩] } := by
  simp only [DeviceManager.add_device, DeviceManager.add_location,
    DeviceManager.get_device_size, dictGet_dictSet_self, Option.map_some']

lemma pySetCell_in_range (gr : Grid) (W H x y : Nat) (c : Color)
    (hlen : gr.length = W) (hrows : ∀ row ∈ gr, row.length = H)
    (hx : x < W) (hy : y < H) :
    ∃ row, gr[x]? = some row ∧
      pySetCell gr (x : Int) (y : Int) c = some (gr.set x (row.set y c)) := by
  have hx' : x < gr.length := by rw [hlen]; exact hx
  have hrow : gr[x]? = some gr[x] := List.getElem?_eq_getElem hx'
  refine ⟨gr[x], hrow, ?_⟩
  unfold pySetCell
  rw [pyGet_coe_nat gr x hx', hrow, Option.some_bind]
  have hylen : y < (gr[x]).length := by
    rw [hrows gr[x] (List.getElem_mem hx')]
    exact hy
  rw [pySet_coe_nat _ y c hylen, Option.some_bind, pySet_coe_nat _ x _ hx']

/-! The claims. -/

/-- C1: the Frame Writer is claimed to route every changed pixel through
the Registry to each device whose Placement contains it, with translated
local coordinates, and to show every touched device.  The code instead
addresses the hard-coded device name "test" with untranslated canvas
coordinates: on the spec's own two-device scenario (device A at the
origin, device B beside it, the next frame turning (0,0) red and (1,0)
blue) the cycle aborts with a KeyError because no device is named
"test", and device B never receives its translated set(blue,0,0). -/
theorem c1_dispatch_hardcoded_test_code_eval :
    thread_light_write_cycle
      [("A", DeviceObj.initState 1 1), ("B", DeviceObj.initState 1 1)]
      (make_color_grid 2 2)
      [[⟨255, 0, 0⟩, ⟨0, 0, 0⟩], [⟨0, 0, 255⟩, ⟨0, 0, 0⟩]]
      = none := by
  rfl

/-- C2: set is claimed to leave the visible grid untouched at all times,
also between two consecutive show() calls.  Because show() executes
`self._lights = self._showBuffer`, both fields alias one grid object
after the first show, so a later set is immediately observable through
get without any intervening show: on a 1x1 device, after one show, a
set of color (5,0,0) changes get(0,0) from (0,0,0) to (5,0,0). -/
theorem c2_set_mutates_visible_after_show_code_eval :
    ∃ s2, DeviceObj.set (DeviceObj.show_dev (DeviceObj.initState 1 1)) 5 0 0 0 0
            = some s2 ∧
      DeviceObj.get s2 0 0 = some ⟨5, 0, 0⟩ ∧
      DeviceObj.get (DeviceObj.show_dev (DeviceObj.initState 1 1)) 0 0
        = some ⟨0, 0, 0⟩ :=
  ⟨_, rfl, rfl, rfl⟩

/-- C3 counterexample: registering a second device under an
already-present name does not fail with DuplicateName, and the Registry
retains the second device, not the first: after adding "a" of size 1x1
and then "a" of size 2x2, the lookup of "a" yields the 2x2 device and
the layout holds two placements. -/
theorem c3_duplicate_name_counterexample :
    ((DeviceManager.add_device ⟨[], []⟩ ⟨"a", 1, 1⟩).bind
        fun m => DeviceManager.add_device m ⟨"a", 2, 2⟩).map
        (fun m => (dictGet m.devices "a", m.currentLayout.length))
      = some (some ⟨"a", 2, 2⟩, 2) := by
  rfl

/-- C3 amended: registering a second device under a name already present
in the Registry does not fail: the dict entry for that name is replaced
by the second device (the Registry retains the last device registered
under that name) and a second Placement is appended to the layout. -/
theorem c3_amended_duplicate_overwrites (m : DeviceManagerSt) (d1 d2 : DevRec)
    (hname : d1.name = d2.name) :
    ∃ m1 m2, DeviceManager.add_device m d1 = some m1 ∧
      DeviceManager.add_device m1 d2 = some m2 ∧
      dictGet m2.devices d1.name = some d2 ∧
      m2.currentLayout.length = m.currentLayout.length + 2 := by
  refine ⟨_, _, add_device_eq m d1, add_device_eq _ d2, ?_, ?_⟩
  · rw [hname]
    exact dictGet_dictSet_self _ _ _
  · simp

/-- C3 witness: the amended claim applied to two concrete devices of the
same name on the empty manager. -/
theorem c3_amended_duplicate_overwrites_witness :
    (DevRec.mk "a" 1 1).name = (DevRec.mk "a" 2 2).name ∧
    ∃ m1 m2, DeviceManager.add_device ⟨[], []⟩ ⟨"a", 1, 1⟩ = some m1 ∧
      DeviceManager.add_device m1 ⟨"a", 2, 2⟩ = some m2 ∧
      dictGet m2.devices (DevRec.mk "a" 1 1).name = some ⟨"a", 2, 2⟩ ∧
      m2.currentLayout.length = ([] : List DevicePosition).length + 2 :=
  ⟨rfl, c3_amended_duplicate_overwrites ⟨[], []⟩ ⟨"a", 1, 1⟩ ⟨"a", 2, 2⟩ rfl⟩

/-- C4: mode and trigger-source selection is claimed to use value
equality, but the source compares with `is` (object identity): a string
equal by value to "timer" (resp. "cross") held by a different object is
not selected, so the timer-trigger (resp. generation) branch is skipped. -/
theorem c4_identity_comparison_code_eval :
    (PyStr.mk "timer" 2).val = timerLiteral.val ∧
    triggerFires ⟨"timer", 2⟩ = false ∧
    (PyStr.mk "cross" 3).val = crossLiteral.val ∧
    frameMakerGenerates ⟨"cross", 3⟩ = false := by
  decide

/-- C5 counterexample: set with the negative coordinate x = -1 on a 2x2
device does not fail: Python negative indexing wraps it to the last row,
and set silently writes the pixel that get(1,0) then returns after a
show. -/
theorem c5_negative_index_counterexample :
    ∃ s2, DeviceObj.set (DeviceObj.initState 2 2) 5 0 0 (-1) 0 = some s2 ∧
      DeviceObj.get (DeviceObj.show_dev s2) 1 0 = some ⟨5, 0, 0⟩ :=
  ⟨_, rfl, rfl⟩

/-- C10: set_trigger_source assigns `self.mode` instead of
`self.trigger_source`, so after the call get_trigger_source is unchanged
while get_mode returns the argument. -/
theorem c10_set_trigger_source_writes_mode (c : RunningConfig) (s : String) :
    RunningConfig.get_trigger_source (RunningConfig.set_trigger_source c s)
        = RunningConfig.get_trigger_source c ∧
      RunningConfig.get_mode (RunningConfig.set_trigger_source c s) = s :=
  ⟨rfl, rfl⟩

/-- C5 amended: for a device whose staging grid has W rows of length H,
set(r,g,b,x,y) fails exactly when x is outside [-W,W) or y is outside
[-H,H): coordinates at or beyond the declared size (or below -W / -H)
raise IndexError, but negative coordinates within -W <= x < 0 or
-H <= y < 0 are accepted by Python's negative-index wrap-around and
silently write a pixel instead of failing. -/
theorem c5_amended_set_failure_range (s : DeviceState) (W H : Nat)
    (r g b x y : Int)
    (hg : gridSized (s.heap s.showBufferRef) W H = true) :
    (DeviceObj.set s r g b x y = none ↔
      ((W : Int) ≤ x ∨ x < -(W : Int) ∨ (H : Int) ≤ y ∨ y < -(H : Int))) := by
  simp only [gridSized, Bool.and_eq_true, beq_iff_eq, List.all_eq_true] at hg
  obtain ⟨hlen, hrows⟩ := hg
  set gr := s.heap s.showBufferRef with hgr
  unfold DeviceObj.set
  rw [Option.map_eq_none']
  unfold pySetCell
  cases hx : pyGet gr x with
  | none =>
    have hxout := (pyGet_eq_none_iff gr x).mp hx
    rw [hlen] at hxout
    simp only [Option.none_bind]
    constructor
    · intro _
      rcases hxout with h | h
      · exact Or.inl h
      · exact Or.inr (Or.inl h)
    · intro _
      trivial
  | some row =>
    have hxin : ¬((W : Int) ≤ x ∨ x < -(W : Int)) := by
      intro hcon
      have hn : pyGet gr x = none :=
        (pyGet_eq_none_iff gr x).mpr (by rw [hlen]; exact hcon)
      rw [hx] at hn
      exact Option.noConfusion hn
    have hrlen : row.length = H := hrows row (pyGet_mem gr x row hx)
    rw [Option.some_bind]
    cases hy : pySet row y ⟨r, g, b⟩ with
    | none =>
      have hyout := (pySet_eq_none_iff row y ⟨r, g, b⟩).mp hy
      rw [hrlen] at hyout
      simp only [Option.none_bind]
      constructor
      · intro _
        rcases hyout with h | h
        · exact Or.inr (Or.inr (Or.inl h))
        · exact Or.inr (Or.inr (Or.inr h))
      · intro _
        trivial
    | some row2 =>
      have hyin : ¬((H : Int) ≤ y ∨ y < -(H : Int)) := by
        intro hcon
        have hn : pySet row y ⟨r, g, b⟩ = none :=
          (pySet_eq_none_iff row y ⟨r, g, b⟩).mpr (by rw [hrlen]; exact hcon)
        rw [hy] at hn
        exact Option.noConfusion hn
      rw [Option.some_bind]
      have hok : pySet gr x row2 ≠ none := by
        intro hnone
        have hcon := (pySet_eq_none_iff gr x row2).mp hnone
        rw [hlen] at hcon
        exact hxin hcon
      constructor
      · intro hnone
        exact absurd hnone hok
      · intro hcon
        rcases hcon with h | h | h | h
        · exact absurd (Or.inl h) hxin
        · exact absurd (Or.inr h) hxin
        · exact absurd (Or.inl h) hyin
        · exact absurd (Or.inr h) hyin

/-- C5 witness: the amended claim applied to a fresh 2x2 device at the
out-of-range coordinate x = 2. -/
theorem c5_amended_set_failure_range_witness :
    gridSized ((DeviceObj.initState 2 2).heap
        (DeviceObj.initState 2 2).showBufferRef) 2 2 = true ∧
    (DeviceObj.set (DeviceObj.initState 2 2) 5 0 0 2 0 = none ↔
      ((2 : Int) ≤ 2 ∨ (2 : Int) < -(2 : Int) ∨ (2 : Int) ≤ 0 ∨
        (0 : Int) < -(2 : Int))) :=
  ⟨by decide, c5_amended_set_failure_range (DeviceObj.initState 2 2) 2 2
    5 0 0 2 0 (by decide)⟩

/-- C6: whenever a DevicePosition contains a canvas coordinate,
translate subtracts the origin and the resulting device-local coordinate
lies within [0,w) x [0,h). -/
theorem c6_translate_within_device (p : DevicePosition) (x y : Int)
    (h : p.is_inside x y = true) :
    p.translate x y = (x - p.x, y - p.y) ∧
    0 ≤ (p.translate x y).1 ∧ (p.translate x y).1 < p.w ∧
    0 ≤ (p.translate x y).2 ∧ (p.translate x y).2 < p.h := by
  simp only [DevicePosition.is_inside, Bool.and_eq_true, decide_eq_true_eq] at h
  obtain ⟨⟨h1, h2⟩, h3, h4⟩ := h
  refine ⟨rfl, ?_, ?_, ?_, ?_⟩
  · show 0 ≤ x - p.x
    omega
  · show x - p.x < p.w
    omega
  · show 0 ≤ y - p.y
    omega
  · show y - p.y < p.h
    omega

/-- C6 witness: the containment theorem applied to a concrete placement
at origin (1,2) of size 3x4 and the canvas coordinate (2,3). -/
theorem c6_translate_within_device_witness :
    DevicePosition.is_inside ⟨"t", 1, 2, 3, 4⟩ 2 3 = true ∧
    (DevicePosition.translate ⟨"t", 1, 2, 3, 4⟩ 2 3 = (2 - 1, 3 - 2) ∧
      0 ≤ (DevicePosition.translate ⟨"t", 1, 2, 3, 4⟩ 2 3).1 ∧
      (DevicePosition.translate ⟨"t", 1, 2, 3, 4⟩ 2 3).1 < (3 : Int) ∧
      0 ≤ (DevicePosition.translate ⟨"t", 1, 2, 3, 4⟩ 2 3).2 ∧
      (DevicePosition.translate ⟨"t", 1, 2, 3, 4⟩ 2 3).2 < (4 : Int)) :=
  ⟨by decide, c6_translate_within_device ⟨"t", 1, 2, 3, 4⟩ 2 3 (by decide)⟩

/-- C7: with every placement's far corner at nonnegative coordinates (as
holds for every placement the program builds, whose origin is (0,0) and
whose sizes come from device grids), get_layout_size returns the
coordinate-wise maximum over all placements of (x + w, y + h): on the
empty layout it is (0,0); otherwise each component bounds every
placement's far corner and is attained by one of them. -/
theorem c7_layout_size_is_max (layout : List DevicePosition)
    (hpos : ∀ p ∈ layout, 0 ≤ p.x + p.w ∧ 0 ≤ p.y + p.h) :
    (layout = [] → get_layout_size layout = (0, 0)) ∧
    (∀ p ∈ layout, p.x + p.w ≤ (get_layout_size layout).1 ∧
      p.y + p.h ≤ (get_layout_size layout).2) ∧
    (layout ≠ [] →
      (∃ p ∈ layout, (get_layout_size layout).1 = p.x + p.w) ∧
      (∃ q ∈ layout, (get_layout_size layout).2 = q.y + q.h)) := by
  rw [get_layout_size_eq layout]
  refine ⟨?_, ?_, ?_⟩
  · intro h
    subst h
    rfl
  · intro p hp
    constructor
    · exact le_foldlMax_mem _ 0 _ (List.mem_map_of_mem _ hp)
    · exact le_foldlMax_mem _ 0 _ (List.mem_map_of_mem _ hp)
  · intro hne
    constructor
    · rcases foldlMax_eq_init_or_mem (layout.map fun p => p.x + p.w) 0 with h | h
      · obtain ⟨p, hp⟩ := List.exists_mem_of_ne_nil layout hne
        refine ⟨p, hp, ?_⟩
        have h1 : p.x + p.w ≤ foldlMax (layout.map fun q => q.x + q.w) 0 :=
          le_foldlMax_mem _ 0 _ (List.mem_map_of_mem _ hp)
        have h2 : 0 ≤ p.x + p.w := (hpos p hp).1
        show foldlMax (layout.map fun q => q.x + q.w) 0 = p.x + p.w
        omega
      · obtain ⟨p, hp, hval⟩ := List.mem_map.mp h
        exact ⟨p, hp, hval.symm⟩
    · rcases foldlMax_eq_init_or_mem (layout.map fun p => p.y + p.h) 0 with h | h
      · obtain ⟨p, hp⟩ := List.exists_mem_of_ne_nil layout hne
        refine ⟨p, hp, ?_⟩
        have h1 : p.y + p.h ≤ foldlMax (layout.map fun q => q.y + q.h) 0 :=
          le_foldlMax_mem _ 0 _ (List.mem_map_of_mem _ hp)
        have h2 : 0 ≤ p.y + p.h := (hpos p hp).2
        show foldlMax (layout.map fun q => q.y + q.h) 0 = p.y + p.h
        omega
      · obtain ⟨p, hp, hval⟩ := List.mem_map.mp h
        exact ⟨p, hp, hval.symm⟩

/-- C7 witness: the layout-size theorem applied to a concrete two-device
layout (sizes 1x1 at origins (0,0) and (1,0)), whose canvas size is
(2,1). -/
theorem c7_layout_size_is_max_witness :
    (∀ p ∈ [DevicePosition.mk "A" 0 0 1 1, DevicePosition.mk "B" 1 0 1 1],
        0 ≤ p.x + p.w ∧ 0 ≤ p.y + p.h) ∧
    (([DevicePosition.mk "A" 0 0 1 1, DevicePosition.mk "B" 1 0 1 1] = [] →
        get_layout_size [DevicePosition.mk "A" 0 0 1 1,
          DevicePosition.mk "B" 1 0 1 1] = (0, 0)) ∧
      (∀ p ∈ [DevicePosition.mk "A" 0 0 1 1, DevicePosition.mk "B" 1 0 1 1],
        p.x + p.w ≤ (get_layout_size [DevicePosition.mk "A" 0 0 1 1,
          DevicePosition.mk "B" 1 0 1 1]).1 ∧
        p.y + p.h ≤ (get_layout_size [DevicePosition.mk "A" 0 0 1 1,
          DevicePosition.mk "B" 1 0 1 1]).2) ∧
      ([DevicePosition.mk "A" 0 0 1 1, DevicePosition.mk "B" 1 0 1 1] ≠ [] →
        (∃ p ∈ [DevicePosition.mk "A" 0 0 1 1, DevicePosition.mk "B" 1 0 1 1],
          (get_layout_size [DevicePosition.mk "A" 0 0 1 1,
            DevicePosition.mk "B" 1 0 1 1]).1 = p.x + p.w) ∧
        (∃ q ∈ [DevicePosition.mk "A" 0 0 1 1, DevicePosition.mk "B" 1 0 1 1],
          (get_layout_size [DevicePosition.mk "A" 0 0 1 1,
            DevicePosition.mk "B" 1 0 1 1]).2 = q.y + q.h))) :=
  ⟨by decide, c7_layout_size_is_max
    [DevicePosition.mk "A" 0 0 1 1, DevicePosition.mk "B" 1 0 1 1] (by decide)⟩

/-- C8: on any device state whose staging grid has W rows of length H,
for every in-range coordinate (x,y), set(r,g,b,x,y) succeeds and, after
show(), get(x,y) returns [r,g,b]. -/
theorem c8_set_show_get_round_trip (s : DeviceState) (W H x y : Nat)
    (r g b : Int)
    (hg : gridSized (s.heap s.showBufferRef) W H = true)
    (hx : x < W) (hy : y < H) :
    ∃ s2, DeviceObj.set s r g b (x : Int) (y : Int) = some s2 ∧
      DeviceObj.get (DeviceObj.show_dev s2) (x : Int) (y : Int)
        = some ⟨r, g, b⟩ := by
  simp only [gridSized, Bool.and_eq_true, beq_iff_eq, List.all_eq_true] at hg
  obtain ⟨hlen, hrows⟩ := hg
  set gr := s.heap s.showBufferRef with hgr
  obtain ⟨row, hrow, hcell⟩ :=
    pySetCell_in_range gr W H x y ⟨r, g, b⟩ hlen hrows hx hy
  have hx' : x < gr.length := by rw [hlen]; exact hx
  have hrowmem : row ∈ gr := by
    rw [List.getElem?_eq_getElem hx'] at hrow
    exact (Option.some.inj hrow) ▸ List.getElem_mem hx'
  have hrlen : row.length = H := hrows row hrowmem
  refine ⟨{ s with heap :=
        Function.update s.heap s.showBufferRef (gr.set x (row.set y ⟨r, g, b⟩)) },
      ?_, ?_⟩
  · unfold DeviceObj.set
    rw [← hgr, hcell]
    rfl
  · show pyGet2 (Function.update s.heap s.showBufferRef
      (gr.set x (row.set y ⟨r, g, b⟩)) s.showBufferRef) (x : Int) (y : Int)
      = some ⟨r, g, b⟩
    rw [Function.update_same]
    unfold pyGet2
    have h1 : x < (gr.set x (row.set y ⟨r, g, b⟩)).length := by
      rw [List.length_set]
      exact hx'
    rw [pyGet_coe_nat _ x h1, List.getElem?_set_self hx', Option.some_bind]
    have h2 : y < (row.set y (Color.mk r g b)).length := by
      rw [List.length_set, hrlen]
      exact hy
    have h3 : y < row.length := by
      rw [hrlen]
      exact hy
    rw [pyGet_coe_nat _ y h2, List.getElem?_set_self h3]

/-- C8 witness: the round trip on a fresh 2x3 device at coordinate (1,2)
with color (7,8,9). -/
theorem c8_set_show_get_round_trip_witness :
    gridSized ((DeviceObj.initState 2 3).heap
        (DeviceObj.initState 2 3).showBufferRef) 2 3 = true ∧
    (1 : Nat) < 2 ∧ (2 : Nat) < 3 ∧
    ∃ s2, DeviceObj.set (DeviceObj.initState 2 3) 7 8 9 ((1 : Nat) : Int)
        ((2 : Nat) : Int) = some s2 ∧
      DeviceObj.get (DeviceObj.show_dev s2) ((1 : Nat) : Int) ((2 : Nat) : Int)
        = some ⟨7, 8, 9⟩ :=
  ⟨by decide, by decide, by decide,
    c8_set_show_get_round_trip (DeviceObj.initState 2 3) 2 3 1 2 7 8 9
      (by decide) (by decide) (by decide)⟩

/-- C9: make_color_grid(W,H,r,g,b) builds exactly W rows, all of length
H, with the color [r,g,b] at every in-range cell (x,y) and nothing
outside those bounds. -/
theorem c9_make_color_grid_shape (W H : Nat) (r g b : Int)
    (hW : 0 < W) (hH : 0 < H) :
    (make_color_grid W H r g b).length = W ∧
    (∀ row ∈ make_color_grid W H r g b, row.length = H) ∧
    (∀ x y : Nat, x < W → y < H →
      pyGet2 (make_color_grid W H r g b) (x : Int) (y : Int)
        = some ⟨r, g, b⟩) := by
  refine ⟨List.length_replicate W _, ?_, ?_⟩
  · intro row hrow
    rw [List.eq_of_mem_replicate hrow]
    exact List.length_replicate H _
  · intro x y hx hy
    unfold pyGet2
    have hxl : x < (make_color_grid W H r g b).length := by
      rw [make_color_grid, List.length_replicate]
      exact hx
    rw [pyGet_coe_nat _ x hxl]
    rw [make_color_grid, List.getElem?_replicate, if_pos hx, Option.some_bind]
    have hyl : y < (List.replicate H (Color.mk r g b)).length := by
      rw [List.length_replicate]
      exact hy
    rw [pyGet_coe_nat _ y hyl, List.getElem?_replicate, if_pos hy]

/-- C9 witness: the grid-shape theorem at size 2x3 with fill color
(1,2,3). -/
theorem c9_make_color_grid_shape_witness :
    (0 : Nat) < 2 ∧ (0 : Nat) < 3 ∧
    ((make_color_grid 2 3 1 2 3).length = 2 ∧
      (∀ row ∈ make_color_grid 2 3 1 2 3, row.length = 3) ∧
      (∀ x y : Nat, x < 2 → y < 3 →
        pyGet2 (make_color_grid 2 3 1 2 3) (x : Int) (y : Int)
          = some ⟨1, 2, 3⟩)) :=
  ⟨by decide, by decide,
    c9_make_color_grid_shape 2 3 1 2 3 (by decide) (by decide)⟩
